import Mathlib

/-!
Verification of the episode-ratings addon (src/api/server.js).

The file shallowly embeds the two deployment variants of the addon:

* variant 1 (configurable, lines 41-137): per-caller API keys, missing
  configuration rejects the request, assembly failure rejects the request;
* variant 2 (environment keys, lines 195-288): no per-request credential
  check, assembly failure degrades to a null meta.

Remote I/O (axios calls against TMDB and OMDB) is abstracted as a pure
environment `Env`; each embedded operation additionally returns the cache
state after the call and the list of remote calls it issued, in issue
order.  Time is a natural number of seconds, fixed for the duration of one
request (cache TTLs are hours, so the sub-second drift inside one request
is unobservable).  The node-cache dependency is embedded as an association
list with absolute expiry timestamps: `set` prepends, `get` takes the most
recent entry for the key and treats entries past their expiry as absent,
exactly node-cache's behaviour (an entry is live while `now <= expiry`).

JavaScript truthiness is modelled where the source relies on it: an absent
or empty string is falsy (`Option String` with `some ""` falsy), and the
numeric `vote_average` is modelled by the string it prints, with `none`
covering the absent/falsy cases.  The sort comparator's behaviour on
values lacking `season`/`episode` fields follows the ECMAScript rule that
a NaN comparator result is treated as 0.  `Array.prototype.sort` is
required by ECMAScript to be stable; it is embedded as a stable insertion
sort (`jsSort`).  `Promise.all` over the per-episode resolutions issues
every request up front and the per-episode cache reads all happen in the
synchronous prologue, against the pre-assembly cache; the embedding mirrors
this by resolving every episode against the initial cache and applying the
episode cache writes afterwards.
-/

set_option linter.unusedVariables false

/-- One episode object as built by getEpisodeRating (server.js lines 120-129).
The released field carries the raw air_date string handed to the Date
constructor; date parsing itself is not modelled (no claim touches it). -/
structure Episode where
  id : String
  title : String
  season : Nat
  episode : Nat
  overview : Option String
  thumbnail : Option String
  released : Option String
  imdbRating : Option String
deriving Repr, DecidableEq

/-- The scalar fields of the meta object built at lines 80-89 / 230-239. -/
structure SeriesInfo where
  id : String
  type : String
  name : Option String
  poster : Option String
  background : Option String
  description : Option String
  imdbRating : Option String
deriving Repr, DecidableEq

/-- A value stored in the shared node-cache: either a whole meta object
(with its videos list) or one episode object.  The videos list holds cache
values rather than episodes because getEpisodeRating returns whatever it
finds under the episode cache key (line 105). -/
inductive CVal : Type where
  | ep : Episode → CVal
  | meta : SeriesInfo → List CVal → CVal

/-- A remote call issued through axios; the API keys only occur inside the
request URLs and are elided. -/
inductive RemoteCall : Type where
  | seriesSummary : String → RemoteCall
  | seasonDetail : String → Nat → RemoteCall
  | episodeDetail : String → Nat → Nat → RemoteCall
  | omdbRating : String → Nat → Nat → RemoteCall
deriving Repr, DecidableEq

/-- Why a remote call failed.  The code never inspects the cause (it only
catches), but the claims distinguish a provider-side not-found from other
failures, so the environment records it.  An axios rejection, and a
response body whose property access throws (a null body), both land here;
a parseable body with missing fields is a normal `ok` answer with `none`
fields. -/
inductive FailKind : Type where
  | notFound : FailKind
  | transport : FailKind
deriving Repr, DecidableEq

/-- The seasons array entries of the series summary (only season_number is
read, line 64-66). -/
structure SeasonRef where
  season_number : Nat
deriving Repr, DecidableEq

/-- One entry of a season's episodes array (lines 70-72 read
season_number and episode_number). -/
structure EpisodeRef where
  season_number : Nat
  episode_number : Nat
deriving Repr, DecidableEq

/-- The series summary body (lines 61-62, fields read at 64, 83-88).
vote_average is a JSON number; it is modelled by the string it prints,
`none` standing for the absent (or falsy) cases. -/
structure SeriesData where
  name : Option String
  poster_path : Option String
  backdrop_path : Option String
  overview : Option String
  vote_average : Option String
  seasons : List SeasonRef
deriving Repr, DecidableEq

/-- A season detail body (line 68 reads episodes). -/
structure SeasonData where
  episodes : List EpisodeRef
deriving Repr, DecidableEq

/-- A TMDB episode detail body (fields read at lines 122-127). -/
structure TmdbEpisode where
  name : Option String
  overview : Option String
  still_path : Option String
  air_date : Option String
deriving Repr, DecidableEq

/-- An OMDB episode-rating body (fields read at lines 116-117, 128). -/
structure OmdbData where
  Response : Option String
  Error : Option String
  imdbRating : Option String
deriving Repr, DecidableEq

/-- The remote world: what each upstream endpoint answers.  Pure, so one
request sees a consistent world. -/
structure Env where
  series : String → Except FailKind SeriesData
  season : String → Nat → Except FailKind SeasonData
  episode : String → Nat → Nat → Except FailKind TmdbEpisode
  omdb : String → Nat → Nat → Except FailKind OmdbData

/-- The per-caller configuration object (args.config), whose tmdbKey and
omdbKey fields may be absent. -/
structure Config where
  tmdbKey : Option String
  omdbKey : Option String
deriving Repr, DecidableEq

/-- JavaScript string truthiness: present and non-empty. -/
def truthyStr : Option String → Bool
  | some s => s ≠ ""
  | none => false

/-- Line 42: args.config && args.config.tmdbKey && args.config.omdbKey. -/
def configValid : Option Config → Bool
  | some c => truthyStr c.tmdbKey && truthyStr c.omdbKey
  | none => false

/-- The node-cache instance: key, value, absolute expiry (seconds). -/
abbrev CacheState : Type := List (String × CVal × Nat)

/-- The empty cache (fresh NodeCache instance). -/
def cacheEmpty : CacheState := []

/-- cache.set(key, value, ttl): stores with expiry now + ttl; the new
entry shadows any older entry for the same key. -/
def cacheSet (σ : CacheState) (k : String) (v : CVal) (ttl : Nat) (now : Nat) : CacheState :=
  (k, v, now + ttl) :: σ

/-- cache.get(key): the most recent entry for the key, absent once the
expiry has passed (node-cache treats an entry as expired when
expiry < now). -/
def cacheGet (σ : CacheState) (k : String) (now : Nat) : Option CVal :=
  match σ.find? (fun e => e.1 == k) with
  | some (_, v, exp) => if now ≤ exp then some v else none
  | none => none

/-- The episode cache key, line 103: seriesImdbId:seasonNumber:episodeNumber. -/
def episodeCacheKey (seriesImdbId : String) (seasonNumber episodeNumber : Nat) : String :=
  seriesImdbId ++ ":" ++ Nat.repr seasonNumber ++ ":" ++ Nat.repr episodeNumber

/-- Line 122: tmdbEpisode.name || `Episode n` (an empty name is falsy). -/
def titleOf (name : Option String) (episodeNumber : Nat) : String :=
  match name with
  | some t => if t = "" then "Episode " ++ Nat.repr episodeNumber else t
  | none => "Episode " ++ Nat.repr episodeNumber

/-- Line 128: omdbEpisode.imdbRating && omdbEpisode.imdbRating !== 'N/A'
? omdbEpisode.imdbRating : null. -/
def normalizeRating (r : Option String) : Option String :=
  match r with
  | some s => if s ≠ "" ∧ s ≠ "N/A" then some s else none
  | none => none

/-- Lines 126: still_path ? base + still_path : null (an empty fragment is
falsy). -/
def guardedUrl (base : String) : Option String → Option String
  | some p => if p = "" then none else some (base ++ p)
  | none => none

/-- The episode object literal, lines 120-129. -/
def buildEpisode (seriesImdbId : String) (seasonNumber episodeNumber : Nat)
    (te : TmdbEpisode) (od : OmdbData) : Episode :=
  { id := episodeCacheKey seriesImdbId seasonNumber episodeNumber
    title := titleOf te.name episodeNumber
    season := seasonNumber
    episode := episodeNumber
    overview := te.overview
    thumbnail := guardedUrl "https://image.tmdb.org/t/p/w300" te.still_path
    released := te.air_date
    imdbRating := normalizeRating od.imdbRating }

/-- What one getEpisodeRating call produces: its return value (null on
failure), its cache write if any (key, value, ttl), and the remote calls
it issued. -/
structure EpOut where
  result : Option CVal
  write : Option (String × CVal × Nat)
  calls : List RemoteCall

/-- getEpisodeRating, lines 102-137.  The API-key parameters of the source
only feed the request URLs and are elided (see RemoteCall).  Both axios
requests are issued together by Promise.all, so both are logged as soon as
the cache misses, whatever their outcomes.  A thrown omdb not-found
(Response === "False") and any failed or throwing response land in the
catch and return null. -/
def getEpisodeRating (env : Env) (seriesImdbId : String) (seasonNumber episodeNumber : Nat)
    (σ : CacheState) (now : Nat) : EpOut :=
  let key := episodeCacheKey seriesImdbId seasonNumber episodeNumber
  match cacheGet σ key now with
  | some v => ⟨some v, none, []⟩
  | none =>
    let calls := [RemoteCall.episodeDetail seriesImdbId seasonNumber episodeNumber,
                  RemoteCall.omdbRating seriesImdbId seasonNumber episodeNumber]
    match env.episode seriesImdbId seasonNumber episodeNumber,
          env.omdb seriesImdbId seasonNumber episodeNumber with
    | Except.ok te, Except.ok od =>
      if od.Response = some "False" then ⟨none, none, calls⟩
      else
        let e := buildEpisode seriesImdbId seasonNumber episodeNumber te od
        ⟨some (CVal.ep e), some (key, CVal.ep e, 12 * 60 * 60), calls⟩
    | _, _ => ⟨none, none, calls⟩

/-- The JS sort comparator of lines 75-78 as an integer-valued function.
On values without season/episode fields the subtractions are NaN, which
the ECMAScript sort algorithm treats as 0. -/
def cvalCmp : CVal → CVal → Int
  | CVal.ep a, CVal.ep b =>
    if a.season ≠ b.season then (a.season : Int) - (b.season : Int)
    else (a.episode : Int) - (b.episode : Int)
  | _, _ => 0

/-- The comparator as a boolean precedence: a may stay before b. -/
def cvalLe (a b : CVal) : Bool := cvalCmp a b ≤ 0

/-- Stable insertion of a before the first element it precedes-or-ties. -/
def jsInsert (le : α → α → Bool) (a : α) : List α → List α
  | [] => [a]
  | b :: l => if le a b then a :: b :: l else b :: jsInsert le a l

/-- Array.prototype.sort: a stable comparison sort (ECMAScript requires
stability; the embedding uses insertion sort). -/
def jsSort (le : α → α → Bool) : List α → List α
  | [] => []
  | a :: l => jsInsert le a (jsSort le l)

/-- Season numbers read from the series summary, line 64. -/
def seasonNumbers (sd : SeriesData) : List Nat :=
  sd.seasons.map (fun s => s.season_number)

/-- Promise.all: succeeds with every result when every promise resolves
and rejects as soon as any of them rejects. -/
def exceptAll (f : α → Except ε β) : List α → Except ε (List β)
  | [] => Except.ok []
  | a :: l =>
    match f a with
    | Except.error e => Except.error e
    | Except.ok b =>
      match exceptAll f l with
      | Except.error e => Except.error e
      | Except.ok bs => Except.ok (b :: bs)

/-- Promise.all over the per-season axios calls, lines 64-67: every
request is issued; the join fails if any of them fails. -/
def fetchSeasons (env : Env) (id : String) (ss : List Nat) : Except FailKind (List SeasonData) :=
  exceptAll (env.season id) ss

/-- Line 68: seasonResponses.flatMap(res => res.data.episodes). -/
def flattenEpisodes (sdatas : List SeasonData) : List EpisodeRef :=
  sdatas.flatMap (fun s => s.episodes)

/-- All per-episode resolutions of one assembly, lines 70-73, each reading
the pre-assembly cache (the cache.get of every call runs in the
synchronous prologue, before any episode write). -/
def resolveEpisodes (env : Env) (id : String) (eps : List EpisodeRef) (σ : CacheState)
    (now : Nat) : List EpOut :=
  eps.map (fun er => getEpisodeRating env id er.season_number er.episode_number σ now)

/-- Apply the episode cache writes of one assembly, in list order (the
real completion order is arbitrary, but the writes are to pairwise
distinct keys whenever the episode list has no duplicate, making the order
unobservable). -/
def applyWrites (σ : CacheState) (outs : List EpOut) (now : Nat) : CacheState :=
  outs.foldl (fun s o =>
    match o.write with
    | some (k, v, ttl) => cacheSet s k v ttl now
    | none => s) σ

/-- The successful part of one assembly: the series data, the sorted
videos, the cache after the episode writes and all remote calls issued.
Failure returns the calls issued up to the failing join. -/
structure AsmOk where
  sd : SeriesData
  videos : List CVal
  cacheAfter : CacheState
  calls : List RemoteCall

/-- The shared try-block of both variants up to the meta construction,
lines 60-78 / 207-228. -/
def runAssembly (env : Env) (now : Nat) (id : String) (σ : CacheState) :
    Except (List RemoteCall) AsmOk :=
  match env.series id with
  | Except.error _ => Except.error [RemoteCall.seriesSummary id]
  | Except.ok sd =>
    let ss := seasonNumbers sd
    let scalls := ss.map (RemoteCall.seasonDetail id)
    match fetchSeasons env id ss with
    | Except.error _ => Except.error (RemoteCall.seriesSummary id :: scalls)
    | Except.ok sdatas =>
      let eps := flattenEpisodes sdatas
      let outs := resolveEpisodes env id eps σ now
      Except.ok
        { sd := sd
          videos := jsSort cvalLe (outs.filterMap (fun o => o.result))
          cacheAfter := applyWrites σ outs now
          calls := RemoteCall.seriesSummary id :: scalls ++ outs.flatMap (fun o => o.calls) }

/-- The meta object literal of variant 1, lines 80-89 (poster, background
and imdbRating are guarded by truthiness checks). -/
def seriesInfoV1 (id : String) (sd : SeriesData) : SeriesInfo :=
  { id := id
    type := "series"
    name := sd.name
    poster := guardedUrl "https://image.tmdb.org/t/p/w500" sd.poster_path
    background := guardedUrl "https://image.tmdb.org/t/p/original" sd.backdrop_path
    description := sd.overview
    imdbRating := sd.vote_average }

/-- Template-literal stringification used by variant 2 (no guard): an
absent fragment prints as the literal text undefined. -/
def jsTemplate : Option String → String
  | some s => s
  | none => "undefined"

/-- The meta object literal of variant 2, lines 230-239 (unguarded
interpolation; va is the stringified vote_average). -/
def seriesInfoV2 (id : String) (sd : SeriesData) (va : String) : SeriesInfo :=
  { id := id
    type := "series"
    name := sd.name
    poster := some ("https://image.tmdb.org/t/p/w500" ++ jsTemplate sd.poster_path)
    background := some ("https://image.tmdb.org/t/p/original" ++ jsTemplate sd.backdrop_path)
    description := sd.overview
    imdbRating := some va }

/-- The outcome handed back to the stremio SDK: a resolved meta object, a
resolved null meta, or a rejected promise carrying its message. -/
inductive HandlerResult : Type where
  | ok : CVal → HandlerResult
  | nullMeta : HandlerResult
  | rejected : String → HandlerResult

/-- The rejection message of line 43. -/
def configRequiredMsg : String :=
  "Configuration required. Please provide TMDB and OMDb API keys in the addon settings."

/-- The rejection message of line 98. -/
def failMsg (id : String) : String :=
  "Failed to fetch metadata for " ++ id ++ ". Please check your API keys and try again."

/-- The try/catch of variant 1, lines 60-99: any assembly failure rejects
with the generic message; success caches the meta under the series id with
the default 24-hour TTL. -/
def assembleV1 (env : Env) (now : Nat) (id : String) (σ : CacheState) :
    HandlerResult × CacheState × List RemoteCall :=
  match runAssembly env now id σ with
  | Except.error cs => (HandlerResult.rejected (failMsg id), σ, cs)
  | Except.ok a =>
    let m := CVal.meta (seriesInfoV1 id a.sd) a.videos
    (HandlerResult.ok m, cacheSet a.cacheAfter id m (24 * 60 * 60) now, a.calls)

/-- The try/catch of variant 2, lines 207-249: failure degrades to a null
meta.  An absent vote_average makes .toString() throw at line 237, after
the episode writes already happened, so that case also degrades to a null
meta while keeping the episode cache writes. -/
def assembleV2 (env : Env) (now : Nat) (id : String) (σ : CacheState) :
    HandlerResult × CacheState × List RemoteCall :=
  match runAssembly env now id σ with
  | Except.error cs => (HandlerResult.nullMeta, σ, cs)
  | Except.ok a =>
    match a.sd.vote_average with
    | none => (HandlerResult.nullMeta, a.cacheAfter, a.calls)
    | some va =>
      let m := CVal.meta (seriesInfoV2 id a.sd va) a.videos
      (HandlerResult.ok m, cacheSet a.cacheAfter id m (24 * 60 * 60) now, a.calls)

/-- The meta handler of variant 1, lines 41-100: credential gate first
(line 42), then the content-type filter (line 49), then the series-level
cache (lines 54-58), then the assembly. -/
def metaHandlerV1 (env : Env) (now : Nat) (cfg : Option Config) (type id : String)
    (σ : CacheState) : HandlerResult × CacheState × List RemoteCall :=
  if configValid cfg = false then (HandlerResult.rejected configRequiredMsg, σ, [])
  else if type ≠ "series" then (HandlerResult.nullMeta, σ, [])
  else
    match cacheGet σ id now with
    | some v => (HandlerResult.ok v, σ, [])
    | none => assembleV1 env now id σ

/-- The meta handler of variant 2, lines 195-250: content-type filter,
series-level cache, assembly; no per-request credential check. -/
def metaHandlerV2 (env : Env) (now : Nat) (type id : String) (σ : CacheState) :
    HandlerResult × CacheState × List RemoteCall :=
  if type ≠ "series" then (HandlerResult.nullMeta, σ, [])
  else
    match cacheGet σ id now with
    | some v => (HandlerResult.ok v, σ, [])
    | none => assembleV2 env now id σ

/-! ### Cache lemmas -/

theorem cacheGet_empty (k : String) (now : Nat) : cacheGet cacheEmpty k now = none := rfl

theorem cacheGet_cacheSet_self (σ : CacheState) (k : String) (v : CVal) (ttl now t : Nat) :
    cacheGet (cacheSet σ k v ttl now) k t = if t ≤ now + ttl then some v else none := by
  simp [cacheGet, cacheSet, List.find?]

theorem cacheGet_cacheSet_ne (σ : CacheState) (k k' : String) (v : CVal) (ttl now t : Nat)
    (h : k' ≠ k) : cacheGet (cacheSet σ k v ttl now) k' t = cacheGet σ k' t := by
  have hb : (k == k') = false := by
    simp only [beq_eq_false_iff_ne]
    exact fun hk => h hk.symm
  simp [cacheGet, cacheSet, List.find?, hb]

/-! ### Promise.all join lemmas -/

theorem exceptAll_isError (f : α → Except ε β) (l : List α)
    (h : ∃ x ∈ l, ∃ e, f x = Except.error e) : ∃ e, exceptAll f l = Except.error e := by
  induction l with
  | nil => simp at h
  | cons a t ih =>
    obtain ⟨x, hx, e, he⟩ := h
    simp only [List.mem_cons] at hx
    cases hx with
    | inl hxa =>
      subst hxa
      exact ⟨e, by simp [exceptAll, he]⟩
    | inr hxt =>
      cases hfa : f a with
      | error e' => exact ⟨e', by simp [exceptAll, hfa]⟩
      | ok b =>
        obtain ⟨e'', he''⟩ := ih ⟨x, hxt, e, he⟩
        exact ⟨e'', by simp [exceptAll, hfa, he'']⟩

/-! ### filterMap counting lemmas -/

theorem length_filterMap_add_countP (l : List α) (f : α → Option β) :
    (l.filterMap f).length + l.countP (fun a => (f a).isNone) = l.length := by
  induction l with
  | nil => simp
  | cons a t ih =>
    cases h : f a <;> simp [List.filterMap_cons, h, List.countP_cons] <;> omega

theorem length_filterMap_eq_iff (l : List α) (f : α → Option β) :
    (l.filterMap f).length = l.length ↔ ∀ a ∈ l, (f a).isSome := by
  constructor
  · intro h a ha
    by_contra hs
    have hn : (f a).isNone := by
      cases hfa : f a <;> simp_all
    have h1 : 1 ≤ l.countP (fun a => (f a).isNone) :=
      List.countP_pos_iff.mpr ⟨a, ha, by simp [hn]⟩
    have := length_filterMap_add_countP l f
    omega
  · intro h
    have hz : l.countP (fun a => (f a).isNone) = 0 := by
      rw [List.countP_eq_zero]
      intro a ha
      have := h a ha
      cases hfa : f a <;> simp_all
    have := length_filterMap_add_countP l f
    omega

/-! ### Stable sort lemmas (jsSort is insertion sort) -/

theorem jsInsert_perm (le : α → α → Bool) (a : α) (l : List α) :
    (jsInsert le a l).Perm (a :: l) := by
  induction l with
  | nil => simp [jsInsert]
  | cons b t ih =>
    by_cases h : le a b = true
    · simp [jsInsert, h]
    · simp only [jsInsert, if_neg h]
      exact ((ih.cons b).trans (List.Perm.swap a b t))

theorem jsSort_perm (le : α → α → Bool) (l : List α) : (jsSort le l).Perm l := by
  induction l with
  | nil => simp [jsSort]
  | cons a t ih =>
    exact (jsInsert_perm le a (jsSort le t)).trans (ih.cons a)

theorem mem_jsSort (le : α → α → Bool) (l : List α) (x : α) :
    x ∈ jsSort le l ↔ x ∈ l :=
  (jsSort_perm le l).mem_iff

theorem length_jsSort (le : α → α → Bool) (l : List α) :
    (jsSort le l).length = l.length :=
  (jsSort_perm le l).length_eq

theorem pairwise_jsInsert (le : α → α → Bool) (a : α) (l : List α)
    (total : ∀ b ∈ l, le a b = true ∨ le b a = true)
    (trans : ∀ b ∈ l, ∀ c ∈ l, le a b = true → le b c = true → le a c = true)
    (h : l.Pairwise (fun x y => le x y = true)) :
    (jsInsert le a l).Pairwise (fun x y => le x y = true) := by
  induction l with
  | nil => simp [jsInsert]
  | cons b t ih =>
    rcases List.pairwise_cons.mp h with ⟨hbt, ht⟩
    by_cases hab : le a b = true
    · simp only [jsInsert, if_pos hab]
      refine List.pairwise_cons.mpr ⟨?_, h⟩
      intro x hx
      rcases List.mem_cons.mp hx with hxb | hxt
      · exact hxb ▸ hab
      · exact trans b (by simp) x (by simp [hxt]) hab (hbt x hxt)
    · simp only [jsInsert, if_neg hab]
      have hba : le b a = true := by
        rcases total b (by simp) with h1 | h1
        · exact absurd h1 hab
        · exact h1
      refine List.pairwise_cons.mpr ⟨?_, ?_⟩
      · intro x hx
        rcases List.mem_cons.mp ((jsInsert_perm le a t).mem_iff.mp hx) with hxa | hxt
        · exact hxa ▸ hba
        · exact hbt x hxt
      · exact ih (fun c hc => total c (by simp [hc]))
          (fun c hc d hd => trans c (by simp [hc]) d (by simp [hd])) ht

theorem pairwise_jsSort (le : α → α → Bool) (l : List α)
    (total : ∀ x ∈ l, ∀ y ∈ l, le x y = true ∨ le y x = true)
    (trans : ∀ x ∈ l, ∀ y ∈ l, ∀ z ∈ l, le x y = true → le y z = true → le x z = true) :
    (jsSort le l).Pairwise (fun x y => le x y = true) := by
  induction l with
  | nil => simp [jsSort]
  | cons a t ih =>
    simp only [jsSort]
    refine pairwise_jsInsert le a (jsSort le t) ?_ ?_ ?_
    · intro b hb
      exact total a (by simp) b (by simp [(mem_jsSort le t b).mp hb])
    · intro b hb c hc
      exact trans a (by simp) b (by simp [(mem_jsSort le t b).mp hb])
        c (by simp [(mem_jsSort le t c).mp hc])
    · exact ih (fun x hx y hy => total x (by simp [hx]) y (by simp [hy]))
        (fun x hx y hy z hz => trans x (by simp [hx]) y (by simp [hy]) z (by simp [hz]))

theorem filter_jsInsert (p : α → Bool) (le : α → α → Bool) (a : α) (l : List α)
    (h : ∀ b ∈ l, p b = true → p a = true → le a b = true) :
    (jsInsert le a l).filter p = if p a then a :: l.filter p else l.filter p := by
  induction l with
  | nil => cases hpa : p a <;> simp [jsInsert, List.filter, hpa]
  | cons b t ih =>
    by_cases hab : le a b = true
    · cases hpa : p a <;> cases hpb : p b <;>
        simp [jsInsert, if_pos hab, List.filter, hpa, hpb]
    · simp only [jsInsert, if_neg hab]
      cases hpa : p a with
      | false =>
        have := ih (fun c hc => h c (by simp [hc]))
        cases hpb : p b <;> simp_all [List.filter_cons]
      | true =>
        have hpb : p b = false := by
          cases hpb : p b with
          | false => rfl
          | true => exact absurd (h b (by simp) hpb hpa) hab
        have := ih (fun c hc => h c (by simp [hc]))
        simp_all [List.filter_cons]

theorem filter_jsSort (p : α → Bool) (le : α → α → Bool) (l : List α)
    (ties : ∀ x ∈ l, ∀ y ∈ l, p x = true → p y = true → le x y = true) :
    (jsSort le l).filter p = l.filter p := by
  induction l with
  | nil => simp [jsSort]
  | cons a t ih =>
    simp only [jsSort]
    rw [filter_jsInsert p le a (jsSort le t)
      (fun b hb hpb hpa => ties a (by simp) b (by simp [(mem_jsSort le t b).mp hb]) hpa hpb)]
    have ih' := ih (fun x hx y hy => ties x (by simp [hx]) y (by simp [hy]))
    cases hpa : p a <;> simp [List.filter_cons, hpa, ih']

/-! ### Decimal printing: the characters of Nat.repr and its injectivity -/

/-- The numeric value of a decimal digit character. -/
def digitVal (c : Char) : Nat := c.toNat - '0'.toNat

theorem digitVal_digitChar (k : Nat) (hk : k < 10) : digitVal (Nat.digitChar k) = k := by
  interval_cases k <;> decide

theorem digitChar_ne_colon (k : Nat) (hk : k < 10) : Nat.digitChar k ≠ ':' := by
  interval_cases k <;> decide

theorem toDigitsCore_append (b : Nat) :
    ∀ (f n : Nat) (ds : List Char),
      Nat.toDigitsCore b f n ds = Nat.toDigitsCore b f n [] ++ ds := by
  intro f
  induction f with
  | zero => intro n ds; rfl
  | succ f ih =>
    intro n ds
    simp only [Nat.toDigitsCore]
    by_cases h : n / b = 0
    · simp [h]
    · rw [if_neg h, if_neg h, ih (n / b) (Nat.digitChar (n % b) :: ds),
        ih (n / b) [Nat.digitChar (n % b)], List.append_assoc]
      rfl

theorem mem_toDigitsCore_ten :
    ∀ (f n : Nat) (c : Char), c ∈ Nat.toDigitsCore 10 f n [] →
      ∃ k, k < 10 ∧ c = Nat.digitChar k := by
  intro f
  induction f with
  | zero => intro n c hc; simp [Nat.toDigitsCore] at hc
  | succ f ih =>
    intro n c hc
    simp only [Nat.toDigitsCore] at hc
    by_cases h : n / 10 = 0
    · rw [if_pos h] at hc
      simp only [List.mem_singleton] at hc
      exact ⟨n % 10, Nat.mod_lt n (by omega), hc⟩
    · rw [if_neg h, toDigitsCore_append] at hc
      rcases List.mem_append.mp hc with h1 | h1
      · exact ih (n / 10) c h1
      · simp only [List.mem_singleton] at h1
        exact ⟨n % 10, Nat.mod_lt n (by omega), h1⟩

/-- The value of a list of decimal digit characters, most significant first. -/
def digitsVal (l : List Char) : Nat :=
  l.foldl (fun a c => 10 * a + digitVal c) 0

theorem digitsVal_toDigitsCore :
    ∀ (f n : Nat), n < f → digitsVal (Nat.toDigitsCore 10 f n []) = n := by
  intro f
  induction f with
  | zero => intro n h; omega
  | succ f ih =>
    intro n h
    simp only [Nat.toDigitsCore]
    by_cases h0 : n / 10 = 0
    · rw [if_pos h0]
      have hn : n < 10 := by omega
      simp [digitsVal, digitVal_digitChar n hn, Nat.mod_eq_of_lt hn]
    · rw [if_neg h0, toDigitsCore_append]
      have hlt : n / 10 < f := by
        have h1 : n / 10 < n := Nat.div_lt_self (by omega) (by omega)
        omega
      have hmod : digitVal (Nat.digitChar (n % 10)) = n % 10 :=
        digitVal_digitChar (n % 10) (Nat.mod_lt n (by omega))
      simp only [digitsVal, List.foldl_append, List.foldl_cons, List.foldl_nil]
      have ihn := ih (n / 10) hlt
      simp only [digitsVal] at ihn
      rw [ihn, hmod]
      omega

theorem repr_data_eq (n : Nat) : (Nat.repr n).data = Nat.toDigits 10 n := rfl

theorem natRepr_injective {m n : Nat} (h : Nat.repr m = Nat.repr n) : m = n := by
  have hd : Nat.toDigits 10 m = Nat.toDigits 10 n := by
    rw [← repr_data_eq, ← repr_data_eq, h]
  have hm := digitsVal_toDigitsCore (m + 1) m (by omega)
  have hn := digitsVal_toDigitsCore (n + 1) n (by omega)
  simp only [Nat.toDigits] at hd
  rw [← hm, ← hn, hd]

theorem colon_not_mem_repr (n : Nat) : ':' ∉ (Nat.repr n).data := by
  intro hc
  rw [repr_data_eq] at hc
  obtain ⟨k, hk, hck⟩ := mem_toDigitsCore_ten (n + 1) n ':' hc
  exact digitChar_ne_colon k hk hck.symm

/-- The series identifier contains no colon (every real Stremio series id
has the form tt…; a colon would make it collide with episode cache keys). -/
def ColonFree (s : String) : Prop := ':' ∉ s.data

instance (s : String) : Decidable (ColonFree s) := by
  unfold ColonFree
  infer_instance

theorem data_episodeCacheKey (sid : String) (s n : Nat) :
    (episodeCacheKey sid s n).data =
      sid.data ++ ':' :: ((Nat.repr s).data ++ ':' :: (Nat.repr n).data) := by
  simp [episodeCacheKey, String.data_append]

theorem colon_split_unique :
    ∀ (a₁ : List Char) (b₁ : List Char) (a₂ : List Char) (b₂ : List Char),
      ':' ∉ a₁ → ':' ∉ a₂ → a₁ ++ ':' :: b₁ = a₂ ++ ':' :: b₂ → a₁ = a₂ ∧ b₁ = b₂ := by
  intro a₁
  induction a₁ with
  | nil =>
    intro b₁ a₂ b₂ h1 h2 heq
    cases a₂ with
    | nil => simpa using heq
    | cons c t =>
      simp only [List.nil_append, List.cons_append, List.cons.injEq] at heq
      exact absurd (heq.1 ▸ List.mem_cons_self c t) h2
  | cons c t ih =>
    intro b₁ a₂ b₂ h1 h2 heq
    cases a₂ with
    | nil =>
      simp only [List.cons_append, List.nil_append, List.cons.injEq] at heq
      exact absurd (heq.1.symm ▸ List.mem_cons_self c t) h1
    | cons c' t' =>
      simp only [List.cons_append, List.cons.injEq] at heq
      obtain ⟨hc, hrest⟩ := heq
      have h1' : ':' ∉ t := fun hm => h1 (List.mem_cons_of_mem c hm)
      have h2' : ':' ∉ t' := fun hm => h2 (List.mem_cons_of_mem c' hm)
      obtain ⟨he1, he2⟩ := ih b₁ t' b₂ h1' h2' hrest
      exact ⟨by rw [hc, he1], he2⟩

theorem string_data_injective {s t : String} (h : s.data = t.data) : s = t := by
  cases s
  cases t
  exact congrArg String.mk h

theorem episodeCacheKey_inj {sid₁ sid₂ : String} {s₁ n₁ s₂ n₂ : Nat}
    (h₁ : ColonFree sid₁) (h₂ : ColonFree sid₂)
    (h : episodeCacheKey sid₁ s₁ n₁ = episodeCacheKey sid₂ s₂ n₂) :
    sid₁ = sid₂ ∧ s₁ = s₂ ∧ n₁ = n₂ := by
  have hd := congrArg String.data h
  rw [data_episodeCacheKey, data_episodeCacheKey] at hd
  obtain ⟨hsid, hrest⟩ := colon_split_unique sid₁.data _ sid₂.data _ h₁ h₂ hd
  obtain ⟨hs, hn⟩ := colon_split_unique (Nat.repr s₁).data _ (Nat.repr s₂).data _
    (colon_not_mem_repr s₁) (colon_not_mem_repr s₂) hrest
  exact ⟨string_data_injective hsid,
    natRepr_injective (string_data_injective hs),
    natRepr_injective (string_data_injective hn)⟩

theorem colonFree_ne_episodeCacheKey {id sid : String} {s n : Nat}
    (h : ColonFree id) : id ≠ episodeCacheKey sid s n := by
  intro he
  apply h
  rw [he, data_episodeCacheKey]
  exact List.mem_append.mpr (Or.inr (List.mem_cons_self _ _))

/-! ### The episode-entry cache invariant -/

/-- Every cache entry whose key has the episode-key shape (for a
colon-free series id) holds exactly the episode record that
getEpisodeRating stores there: an episode value whose id equals the key
and whose season/episode fields are the ones encoded in the key. -/
def CacheInv (σ : CacheState) : Prop :=
  ∀ k v exp, (k, v, exp) ∈ σ → ∀ sid s n, ColonFree sid → k = episodeCacheKey sid s n →
    ∃ e, v = CVal.ep e ∧ e.id = k ∧ e.season = s ∧ e.episode = n

theorem cacheInv_empty : CacheInv cacheEmpty := by
  intro k v exp hmem
  simp [cacheEmpty] at hmem

theorem cacheInv_read {σ : CacheState} {sid : String} {s n now : Nat} {v : CVal}
    (h : CacheInv σ) (hsid : ColonFree sid)
    (hget : cacheGet σ (episodeCacheKey sid s n) now = some v) :
    ∃ e, v = CVal.ep e ∧ e.id = episodeCacheKey sid s n ∧ e.season = s ∧ e.episode = n := by
  unfold cacheGet at hget
  cases hf : σ.find? (fun e => e.1 == episodeCacheKey sid s n) with
  | none => rw [hf] at hget; exact absurd hget (by simp)
  | some ent =>
    rw [hf] at hget
    obtain ⟨k', v', exp'⟩ := ent
    have hk : k' = episodeCacheKey sid s n := by
      have := List.find?_some hf
      simpa using this
    have hmem := List.mem_of_find?_eq_some hf
    have hv : v' = v := by
      by_cases hnow : now ≤ exp'
      · simpa [hnow] using hget
      · simp [hnow] at hget
    obtain ⟨e, he⟩ := h k' v' exp' hmem sid s n hsid hk
    exact ⟨e, by rw [← hv]; exact he.1, hk ▸ he.2.1, he.2.2⟩

theorem cacheInv_set_series {σ : CacheState} {id : String} {m : CVal} {ttl now : Nat}
    (h : CacheInv σ) (hid : ColonFree id) : CacheInv (cacheSet σ id m ttl now) := by
  intro k v exp hmem sid s n hsid hk
  rcases List.mem_cons.mp hmem with hhead | htail
  · have h1 : k = id := congrArg Prod.fst hhead
    exact absurd (h1 ▸ hk) (colonFree_ne_episodeCacheKey hid)
  · exact h k v exp htail sid s n hsid hk

theorem cacheInv_set_episode {σ : CacheState} {sid₀ : String} {s₀ n₀ ttl now : Nat}
    {e₀ : Episode} (h : CacheInv σ) (hsid₀ : ColonFree sid₀)
    (hid : e₀.id = episodeCacheKey sid₀ s₀ n₀) (hs : e₀.season = s₀) (hn : e₀.episode = n₀) :
    CacheInv (cacheSet σ (episodeCacheKey sid₀ s₀ n₀) (CVal.ep e₀) ttl now) := by
  intro k v exp hmem sid s n hsid hk
  rcases List.mem_cons.mp hmem with hhead | htail
  · have h1 : k = episodeCacheKey sid₀ s₀ n₀ := congrArg Prod.fst hhead
    have hv : v = CVal.ep e₀ := congrArg (fun p => p.2.1) hhead
    obtain ⟨hsid', hs', hn'⟩ := episodeCacheKey_inj hsid₀ hsid (h1.symm.trans hk)
    exact ⟨e₀, hv, hid.trans h1.symm, by omega, by omega⟩
  · exact h k v exp htail sid s n hsid hk

/-- What a cache write of one resolver call must look like to preserve the
invariant. -/
def WriteOK (o : EpOut) : Prop :=
  ∀ k v ttl, o.write = some (k, v, ttl) →
    ∃ sid s n e, ColonFree sid ∧ k = episodeCacheKey sid s n ∧ v = CVal.ep e ∧
      e.id = k ∧ e.season = s ∧ e.episode = n

theorem buildEpisode_id (sid : String) (s n : Nat) (te : TmdbEpisode) (od : OmdbData) :
    (buildEpisode sid s n te od).id = episodeCacheKey sid s n := rfl

theorem buildEpisode_season (sid : String) (s n : Nat) (te : TmdbEpisode) (od : OmdbData) :
    (buildEpisode sid s n te od).season = s := rfl

theorem buildEpisode_episode (sid : String) (s n : Nat) (te : TmdbEpisode) (od : OmdbData) :
    (buildEpisode sid s n te od).episode = n := rfl

theorem getEpisodeRating_write_shape {env : Env} {sid : String} {s n : Nat} {σ : CacheState}
    {now : Nat} {k : String} {v : CVal} {ttl : Nat}
    (h : (getEpisodeRating env sid s n σ now).write = some (k, v, ttl)) :
    ttl = 12 * 60 * 60 ∧ k = episodeCacheKey sid s n ∧
      ∃ te od, env.episode sid s n = Except.ok te ∧ env.omdb sid s n = Except.ok od ∧
        od.Response ≠ some "False" ∧ v = CVal.ep (buildEpisode sid s n te od) := by
  simp only [getEpisodeRating] at h
  cases hget : cacheGet σ (episodeCacheKey sid s n) now with
  | some w => rw [hget] at h; simp at h
  | none =>
    rw [hget] at h
    cases hep : env.episode sid s n with
    | error e => rw [hep] at h; simp at h
    | ok te =>
      cases hod : env.omdb sid s n with
      | error e => rw [hep, hod] at h; simp at h
      | ok od =>
        rw [hep, hod] at h
        by_cases hresp : od.Response = some "False"
        · simp [hresp] at h
        · simp only [hresp, if_false, Option.some.injEq, Prod.mk.injEq, if_neg,
            not_false_eq_true] at h
          obtain ⟨hk, hv, httl⟩ := h
          exact ⟨by omega, hk.symm, te, od, rfl, rfl, hresp, hv.symm⟩

theorem getEpisodeRating_writeOK {env : Env} {sid : String} {s n : Nat} {σ : CacheState}
    {now : Nat} (hsid : ColonFree sid) : WriteOK (getEpisodeRating env sid s n σ now) := by
  intro k v ttl h
  obtain ⟨_, hk, te, od, _, _, _, hv⟩ := getEpisodeRating_write_shape h
  exact ⟨sid, s, n, buildEpisode sid s n te od, hsid, hk, hv,
    hk ▸ buildEpisode_id sid s n te od, buildEpisode_season sid s n te od,
    buildEpisode_episode sid s n te od⟩

theorem cacheInv_applyWrites {now : Nat} :
    ∀ (outs : List EpOut) (σ : CacheState), (∀ o ∈ outs, WriteOK o) → CacheInv σ →
      CacheInv (applyWrites σ outs now) := by
  intro outs
  induction outs with
  | nil => intro σ _ h; exact h
  | cons o t ih =>
    intro σ hok h
    have hstep : CacheInv (match o.write with
        | some (k, v, ttl) => cacheSet σ k v ttl now
        | none => σ) := by
      cases hw : o.write with
      | none => exact h
      | some w =>
        obtain ⟨k, v, ttl⟩ := w
        obtain ⟨sid, s, n, e, hsid, hk, hv, hid, hs, hn⟩ := hok o (by simp) k v ttl hw
        subst hk
        subst hv
        exact cacheInv_set_episode h hsid hid hs hn
    have := ih _ (fun o' ho' => hok o' (by simp [ho'])) hstep
    simpa [applyWrites, List.foldl_cons] using this

/-! ### Execution-path lemmas -/

theorem runAssembly_error_series {env : Env} {now : Nat} {id : String} {σ : CacheState}
    {fk : FailKind} (hser : env.series id = Except.error fk) :
    runAssembly env now id σ = Except.error [RemoteCall.seriesSummary id] := by
  simp [runAssembly, hser]

theorem runAssembly_error_season {env : Env} {now : Nat} {id : String} {σ : CacheState}
    {sd : SeriesData} {fk : FailKind} (hser : env.series id = Except.ok sd)
    (hfs : fetchSeasons env id (seasonNumbers sd) = Except.error fk) :
    runAssembly env now id σ =
      Except.error (RemoteCall.seriesSummary id ::
        (seasonNumbers sd).map (RemoteCall.seasonDetail id)) := by
  simp [runAssembly, hser, hfs]

theorem runAssembly_ok_of {env : Env} {now : Nat} {id : String} {σ : CacheState}
    {sd : SeriesData} {sdatas : List SeasonData} (hser : env.series id = Except.ok sd)
    (hfs : fetchSeasons env id (seasonNumbers sd) = Except.ok sdatas) :
    runAssembly env now id σ = Except.ok
      { sd := sd
        videos := jsSort cvalLe
          ((resolveEpisodes env id (flattenEpisodes sdatas) σ now).filterMap
            (fun o => o.result))
        cacheAfter := applyWrites σ (resolveEpisodes env id (flattenEpisodes sdatas) σ now) now
        calls := RemoteCall.seriesSummary id ::
          ((seasonNumbers sd).map (RemoteCall.seasonDetail id) ++
            (resolveEpisodes env id (flattenEpisodes sdatas) σ now).flatMap
              (fun o => o.calls)) } := by
  simp [runAssembly, hser, hfs]

theorem runAssembly_ok_elim {env : Env} {now : Nat} {id : String} {σ : CacheState} {a : AsmOk}
    (h : runAssembly env now id σ = Except.ok a) :
    ∃ sd sdatas, env.series id = Except.ok sd ∧
      fetchSeasons env id (seasonNumbers sd) = Except.ok sdatas ∧
      a.sd = sd ∧
      a.videos = jsSort cvalLe
        ((resolveEpisodes env id (flattenEpisodes sdatas) σ now).filterMap
          (fun o => o.result)) ∧
      a.cacheAfter = applyWrites σ (resolveEpisodes env id (flattenEpisodes sdatas) σ now) now ∧
      a.calls = RemoteCall.seriesSummary id ::
        ((seasonNumbers sd).map (RemoteCall.seasonDetail id) ++
          (resolveEpisodes env id (flattenEpisodes sdatas) σ now).flatMap
            (fun o => o.calls)) := by
  cases hser : env.series id with
  | error fk => rw [runAssembly_error_series hser] at h; simp at h
  | ok sd =>
    cases hfs : fetchSeasons env id (seasonNumbers sd) with
    | error fk => rw [runAssembly_error_season hser hfs] at h; simp at h
    | ok sdatas =>
      rw [runAssembly_ok_of hser hfs] at h
      refine ⟨sd, sdatas, rfl, hfs, ?_, ?_, ?_, ?_⟩ <;>
        simp only [Except.ok.injEq] at h <;> rw [← h]

theorem assembleV1_error {env : Env} {now : Nat} {id : String} {σ : CacheState}
    {cs : List RemoteCall} (h : runAssembly env now id σ = Except.error cs) :
    assembleV1 env now id σ = (HandlerResult.rejected (failMsg id), σ, cs) := by
  simp [assembleV1, h]

theorem assembleV1_ok {env : Env} {now : Nat} {id : String} {σ : CacheState} {a : AsmOk}
    (h : runAssembly env now id σ = Except.ok a) :
    assembleV1 env now id σ =
      (HandlerResult.ok (CVal.meta (seriesInfoV1 id a.sd) a.videos),
        cacheSet a.cacheAfter id (CVal.meta (seriesInfoV1 id a.sd) a.videos) (24 * 60 * 60) now,
        a.calls) := by
  simp [assembleV1, h]

theorem assembleV2_error {env : Env} {now : Nat} {id : String} {σ : CacheState}
    {cs : List RemoteCall} (h : runAssembly env now id σ = Except.error cs) :
    assembleV2 env now id σ = (HandlerResult.nullMeta, σ, cs) := by
  simp [assembleV2, h]

theorem assembleV2_ok_noVote {env : Env} {now : Nat} {id : String} {σ : CacheState} {a : AsmOk}
    (h : runAssembly env now id σ = Except.ok a) (hva : a.sd.vote_average = none) :
    assembleV2 env now id σ = (HandlerResult.nullMeta, a.cacheAfter, a.calls) := by
  simp [assembleV2, h, hva]

theorem assembleV2_ok {env : Env} {now : Nat} {id : String} {σ : CacheState} {a : AsmOk}
    {va : String} (h : runAssembly env now id σ = Except.ok a)
    (hva : a.sd.vote_average = some va) :
    assembleV2 env now id σ =
      (HandlerResult.ok (CVal.meta (seriesInfoV2 id a.sd va) a.videos),
        cacheSet a.cacheAfter id (CVal.meta (seriesInfoV2 id a.sd va) a.videos)
          (24 * 60 * 60) now,
        a.calls) := by
  simp [assembleV2, h, hva]

theorem metaHandlerV1_noConfig {env : Env} {now : Nat} {cfg : Option Config} {ty id : String}
    {σ : CacheState} (h : configValid cfg = false) :
    metaHandlerV1 env now cfg ty id σ = (HandlerResult.rejected configRequiredMsg, σ, []) := by
  simp [metaHandlerV1, h]

theorem metaHandlerV1_notSeries {env : Env} {now : Nat} {cfg : Option Config} {ty id : String}
    {σ : CacheState} (h : configValid cfg = true) (ht : ty ≠ "series") :
    metaHandlerV1 env now cfg ty id σ = (HandlerResult.nullMeta, σ, []) := by
  simp [metaHandlerV1, h, ht]

theorem metaHandlerV1_hit {env : Env} {now : Nat} {cfg : Option Config} {id : String}
    {σ : CacheState} {v : CVal} (h : configValid cfg = true)
    (hget : cacheGet σ id now = some v) :
    metaHandlerV1 env now cfg "series" id σ = (HandlerResult.ok v, σ, []) := by
  simp [metaHandlerV1, h, hget]

theorem metaHandlerV1_miss {env : Env} {now : Nat} {cfg : Option Config} {id : String}
    {σ : CacheState} (h : configValid cfg = true) (hget : cacheGet σ id now = none) :
    metaHandlerV1 env now cfg "series" id σ = assembleV1 env now id σ := by
  simp [metaHandlerV1, h, hget]

theorem metaHandlerV2_notSeries {env : Env} {now : Nat} {ty id : String} {σ : CacheState}
    (ht : ty ≠ "series") :
    metaHandlerV2 env now ty id σ = (HandlerResult.nullMeta, σ, []) := by
  simp [metaHandlerV2, ht]

theorem metaHandlerV2_hit {env : Env} {now : Nat} {id : String} {σ : CacheState} {v : CVal}
    (hget : cacheGet σ id now = some v) :
    metaHandlerV2 env now "series" id σ = (HandlerResult.ok v, σ, []) := by
  simp [metaHandlerV2, hget]

theorem metaHandlerV2_miss {env : Env} {now : Nat} {id : String} {σ : CacheState}
    (hget : cacheGet σ id now = none) :
    metaHandlerV2 env now "series" id σ = assembleV2 env now id σ := by
  simp [metaHandlerV2, hget]

/-! ### Resolver result shape and invariant preservation through requests -/

theorem getEpisodeRating_result_shape {env : Env} {sid : String} {s n : Nat} {σ : CacheState}
    {now : Nat} {v : CVal} (hInv : CacheInv σ) (hsid : ColonFree sid)
    (h : (getEpisodeRating env sid s n σ now).result = some v) :
    ∃ e, v = CVal.ep e ∧ e.id = episodeCacheKey sid s n ∧ e.season = s ∧ e.episode = n := by
  simp only [getEpisodeRating] at h
  cases hget : cacheGet σ (episodeCacheKey sid s n) now with
  | some w =>
    rw [hget] at h
    simp only [Option.some.injEq] at h
    exact h ▸ cacheInv_read hInv hsid hget
  | none =>
    rw [hget] at h
    cases hep : env.episode sid s n with
    | error e => rw [hep] at h; simp at h
    | ok te =>
      cases hod : env.omdb sid s n with
      | error e => rw [hep, hod] at h; simp at h
      | ok od =>
        rw [hep, hod] at h
        by_cases hresp : od.Response = some "False"
        · simp [hresp] at h
        · simp only [hresp, if_neg, not_false_eq_true, Option.some.injEq] at h
          exact ⟨buildEpisode sid s n te od, h.symm, buildEpisode_id sid s n te od,
            buildEpisode_season sid s n te od, buildEpisode_episode sid s n te od⟩

theorem getEpisodeRating_absent {env : Env} {sid : String} {s n : Nat} {σ : CacheState}
    {now : Nat} (hget : cacheGet σ (episodeCacheKey sid s n) now = none)
    (hfail : (∃ fk, env.omdb sid s n = Except.error fk) ∨
      (∃ od, env.omdb sid s n = Except.ok od ∧ od.Response = some "False")) :
    (getEpisodeRating env sid s n σ now).result = none := by
  simp only [getEpisodeRating, hget]
  rcases hfail with ⟨fk, hod⟩ | ⟨od, hod, hresp⟩
  · cases hep : env.episode sid s n <;> simp [hod]
  · cases hep : env.episode sid s n with
    | error e => simp [hod]
    | ok te => simp [hod, hresp]

theorem cacheInv_runAssembly_ok {env : Env} {now : Nat} {id : String} {σ : CacheState}
    {a : AsmOk} (hInv : CacheInv σ) (hid : ColonFree id)
    (h : runAssembly env now id σ = Except.ok a) : CacheInv a.cacheAfter := by
  obtain ⟨sd, sdatas, hser, hfs, hsd, hvids, hcache, hcalls⟩ := runAssembly_ok_elim h
  rw [hcache]
  refine cacheInv_applyWrites _ _ ?_ hInv
  intro o ho
  obtain ⟨er, her, ho'⟩ := List.mem_map.mp ho
  rw [← ho']
  exact getEpisodeRating_writeOK hid

theorem cacheInv_metaHandlerV1 {env : Env} {now : Nat} {cfg : Option Config} {ty id : String}
    {σ : CacheState} (hInv : CacheInv σ) (hid : ColonFree id) :
    CacheInv (metaHandlerV1 env now cfg ty id σ).2.1 := by
  cases hc : configValid cfg with
  | false => rw [metaHandlerV1_noConfig hc]; exact hInv
  | true =>
    by_cases hty : ty = "series"
    · subst hty
      cases hget : cacheGet σ id now with
      | some v => rw [metaHandlerV1_hit hc hget]; exact hInv
      | none =>
        rw [metaHandlerV1_miss hc hget]
        cases hrun : runAssembly env now id σ with
        | error cs => rw [assembleV1_error hrun]; exact hInv
        | ok a =>
          rw [assembleV1_ok hrun]
          exact cacheInv_set_series (cacheInv_runAssembly_ok hInv hid hrun) hid
    · rw [metaHandlerV1_notSeries hc hty]; exact hInv

theorem cacheInv_metaHandlerV2 {env : Env} {now : Nat} {ty id : String} {σ : CacheState}
    (hInv : CacheInv σ) (hid : ColonFree id) :
    CacheInv (metaHandlerV2 env now ty id σ).2.1 := by
  by_cases hty : ty = "series"
  · subst hty
    cases hget : cacheGet σ id now with
    | some v => rw [metaHandlerV2_hit hget]; exact hInv
    | none =>
      rw [metaHandlerV2_miss hget]
      cases hrun : runAssembly env now id σ with
      | error cs => rw [assembleV2_error hrun]; exact hInv
      | ok a =>
        cases hva : a.sd.vote_average with
        | none =>
          rw [assembleV2_ok_noVote hrun hva]
          exact cacheInv_runAssembly_ok hInv hid hrun
        | some va =>
          rw [assembleV2_ok hrun hva]
          exact cacheInv_set_series (cacheInv_runAssembly_ok hInv hid hrun) hid
  · rw [metaHandlerV2_notSeries hty]; exact hInv

/-- Cache states the running addon can actually be in: the empty cache at
process start, followed by any sequence of meta requests against either
deployment variant, for series identifiers without a colon (every real
Stremio series id is tt-prefixed). -/
inductive Reach : CacheState → Prop where
  | init : Reach cacheEmpty
  | stepV1 (env : Env) (now : Nat) (cfg : Option Config) (ty id : String) (σ : CacheState) :
      Reach σ → ColonFree id → Reach (metaHandlerV1 env now cfg ty id σ).2.1
  | stepV2 (env : Env) (now : Nat) (ty id : String) (σ : CacheState) :
      Reach σ → ColonFree id → Reach (metaHandlerV2 env now ty id σ).2.1

theorem cacheInv_of_reach {σ : CacheState} (h : Reach σ) : CacheInv σ := by
  induction h with
  | init => exact cacheInv_empty
  | stepV1 env now cfg ty id σ hr hid ih => exact cacheInv_metaHandlerV1 ih hid
  | stepV2 env now ty id σ hr hid ih => exact cacheInv_metaHandlerV2 ih hid

/-! ### Concrete environments for witnesses and counterexamples -/

/-- A configuration carrying both API keys. -/
def cfgBoth : Option Config := some { tmdbKey := some "tk", omdbKey := some "ok" }

/-- An environment in which every upstream call fails. -/
def envDown : Env :=
  { series := fun _ => Except.error FailKind.transport
    season := fun _ _ => Except.error FailKind.transport
    episode := fun _ _ _ => Except.error FailKind.transport
    omdb := fun _ _ _ => Except.error FailKind.transport }

/-- The series summary served by envHappy. -/
def happySeriesData : SeriesData :=
  { name := some "Show", poster_path := some "/p.jpg", backdrop_path := some "/b.jpg"
    overview := some "About.", vote_average := some "8.1", seasons := [⟨1⟩] }

/-- A one-season, one-episode world where every call succeeds. -/
def envHappy : Env :=
  { series := fun _ => Except.ok happySeriesData
    season := fun _ _ => Except.ok ⟨[⟨1, 1⟩]⟩
    episode := fun _ _ _ => Except.ok ⟨some "Pilot", some "O", some "/s.jpg", some "2020-01-01"⟩
    omdb := fun _ _ _ => Except.ok ⟨some "True", none, some "7.9"⟩ }

theorem failMsg_ne_configRequiredMsg (id : String) : failMsg id ≠ configRequiredMsg := by
  intro h
  have hd := congrArg String.data h
  simp only [failMsg, configRequiredMsg, String.data_append] at hd
  have h3 : (some 'F' : Option Char) = some 'C' := congrArg (fun l => l.head?) hd
  exact absurd (Option.some.inj h3) (by decide)

/-! ### C7 -/

/-- C7: in the credential-requiring (configurable) variant, a request whose
configuration does not yield both API tokens is rejected with the
configuration-required message, issues zero remote calls, and leaves the
cache untouched; this holds for every environment, time, content type,
identifier and cache state. -/
theorem c7_missing_credentials_rejected (env : Env) (now : Nat) (cfg : Option Config)
    (ty id : String) (σ : CacheState) (h : configValid cfg = false) :
    metaHandlerV1 env now cfg ty id σ = (HandlerResult.rejected configRequiredMsg, σ, []) :=
  metaHandlerV1_noConfig h

/-- Witness for C7: a series request with no configuration at all is
rejected with zero remote calls. -/
theorem c7_missing_credentials_rejected_witness :
    metaHandlerV1 envDown 0 none "series" "tt1" cacheEmpty =
      (HandlerResult.rejected configRequiredMsg, cacheEmpty, []) :=
  c7_missing_credentials_rejected envDown 0 none "series" "tt1" cacheEmpty rfl

/-! ### C9 -/

/-- C9: an episode whose metadata carries no title gets the synthesized
title Episode n, and a ratings answer of N/A is normalized to an absent
rating on the built episode record. -/
theorem c9_title_fallback_and_na_rating (sid : String) (s n : Nat)
    (te : TmdbEpisode) (od : OmdbData) :
    (te.name = none → (buildEpisode sid s n te od).title = "Episode " ++ Nat.repr n) ∧
    (od.imdbRating = some "N/A" → (buildEpisode sid s n te od).imdbRating = none) := by
  constructor
  · intro h
    simp [buildEpisode, titleOf, h]
  · intro h
    simp [buildEpisode, normalizeRating, h]

/-- Witness for C9 at a concrete episode: season 1 episode 2, no provider
title, rating N/A. -/
theorem c9_title_fallback_and_na_rating_witness :
    (buildEpisode "tt1" 1 2 ⟨none, none, none, none⟩
      ⟨some "True", none, some "N/A"⟩).title = "Episode 2" ∧
    (buildEpisode "tt1" 1 2 ⟨none, none, none, none⟩
      ⟨some "True", none, some "N/A"⟩).imdbRating = none := by
  have h := c9_title_fallback_and_na_rating "tt1" 1 2 ⟨none, none, none, none⟩
    ⟨some "True", none, some "N/A"⟩
  exact ⟨(h.1 rfl).trans (by decide), h.2 rfl⟩

/-! ### C6 -/

/-- C6 counterexample: a non-series request with missing credentials does
not return absent with no error — the configurable variant's credential
gate runs before the content-type filter, so the request is rejected with
the configuration-required message instead.  This refutes, at a concrete
input, that a non-series request returns absent independently of
credential state. -/
theorem c6_counterexample :
    metaHandlerV1 envDown 0 none "movie" "tt1" cacheEmpty =
      (HandlerResult.rejected configRequiredMsg, cacheEmpty, []) ∧
    HandlerResult.rejected configRequiredMsg ≠ HandlerResult.nullMeta := by
  refine ⟨rfl, ?_⟩
  intro h
  exact HandlerResult.noConfusion h

/-- C6 (amended): a non-series request returns absent immediately with no
error and zero remote calls whenever it passes the credential gate — that
is, unconditionally in the env-keyed variant, and only when both API keys
are supplied in the configurable variant; with missing credentials the
configurable variant instead rejects before looking at the content type. -/
theorem c6_non_series_absent (env : Env) (now : Nat) (cfg : Option Config)
    (ty id : String) (σ : CacheState) :
    (configValid cfg = true → ty ≠ "series" →
      metaHandlerV1 env now cfg ty id σ = (HandlerResult.nullMeta, σ, [])) ∧
    (ty ≠ "series" → metaHandlerV2 env now ty id σ = (HandlerResult.nullMeta, σ, [])) ∧
    (configValid cfg = false →
      metaHandlerV1 env now cfg ty id σ = (HandlerResult.rejected configRequiredMsg, σ, [])) := by
  refine ⟨fun hc ht => metaHandlerV1_notSeries hc ht,
    fun ht => metaHandlerV2_notSeries ht,
    fun hc => metaHandlerV1_noConfig hc⟩

/-- Witness for C6: a movie request with both keys present resolves to a
null meta with zero remote calls in both variants. -/
theorem c6_non_series_absent_witness :
    metaHandlerV1 envDown 0 cfgBoth "movie" "tt1" cacheEmpty =
      (HandlerResult.nullMeta, cacheEmpty, []) ∧
    metaHandlerV2 envDown 0 "movie" "tt1" cacheEmpty =
      (HandlerResult.nullMeta, cacheEmpty, []) := by
  have h := c6_non_series_absent envDown 0 cfgBoth "movie" "tt1" cacheEmpty
  exact ⟨h.1 rfl (by decide), h.2.1 (by decide)⟩

/-! ### C5 -/

/-- An environment whose series-summary lookup reports the identifier as
unknown (provider not-found). -/
def envSeriesNotFound : Env :=
  { series := fun _ => Except.error FailKind.notFound
    season := fun _ _ => Except.error FailKind.notFound
    episode := fun _ _ _ => Except.error FailKind.notFound
    omdb := fun _ _ _ => Except.error FailKind.notFound }

/-- C5 counterexample: an unknown identifier and a transport failure of
the series summary produce bit-identical handler outcomes — the same
generic rejection — so no distinct NotFoundError exists and not-found is
not distinguishable from other upstream failures. -/
theorem c5_counterexample :
    metaHandlerV1 envSeriesNotFound 0 cfgBoth "series" "tt1" cacheEmpty =
      (HandlerResult.rejected (failMsg "tt1"), cacheEmpty, [RemoteCall.seriesSummary "tt1"]) ∧
    metaHandlerV1 envDown 0 cfgBoth "series" "tt1" cacheEmpty =
      (HandlerResult.rejected (failMsg "tt1"), cacheEmpty, [RemoteCall.seriesSummary "tt1"]) := by
  exact ⟨rfl, rfl⟩

/-- C5 (amended): every failure of the series-summary call — the provider
reporting the identifier unknown included — yields one and the same
generic rejection in the configurable variant and an absent meta in the
env-keyed variant, so not-found and other upstream failures are not
distinguishable; only the missing-configuration rejection is a distinct
error (its message differs from the generic one for every identifier). -/
theorem c5_not_found_not_distinguished :
    (∀ (env : Env) (now : Nat) (cfg : Option Config) (id : String) (σ : CacheState)
        (fk : FailKind), configValid cfg = true → cacheGet σ id now = none →
      env.series id = Except.error fk →
      metaHandlerV1 env now cfg "series" id σ =
        (HandlerResult.rejected (failMsg id), σ, [RemoteCall.seriesSummary id])) ∧
    (∀ (env : Env) (now : Nat) (id : String) (σ : CacheState) (fk : FailKind),
      cacheGet σ id now = none → env.series id = Except.error fk →
      metaHandlerV2 env now "series" id σ =
        (HandlerResult.nullMeta, σ, [RemoteCall.seriesSummary id])) ∧
    (∀ id : String, failMsg id ≠ configRequiredMsg) := by
  refine ⟨?_, ?_, failMsg_ne_configRequiredMsg⟩
  · intro env now cfg id σ fk hc hmiss hser
    rw [metaHandlerV1_miss hc hmiss, assembleV1_error (runAssembly_error_series hser)]
  · intro env now id σ fk hmiss hser
    rw [metaHandlerV2_miss hmiss, assembleV2_error (runAssembly_error_series hser)]

/-- Witness for C5: instantiating the amended statement at the concrete
not-found environment: both variants return their generic failure, and the
generic message differs from the configuration message. -/
theorem c5_not_found_not_distinguished_witness :
    metaHandlerV1 envSeriesNotFound 0 cfgBoth "series" "tt1" cacheEmpty =
      (HandlerResult.rejected (failMsg "tt1"), cacheEmpty, [RemoteCall.seriesSummary "tt1"]) ∧
    metaHandlerV2 envSeriesNotFound 0 "series" "tt1" cacheEmpty =
      (HandlerResult.nullMeta, cacheEmpty, [RemoteCall.seriesSummary "tt1"]) ∧
    failMsg "tt1" ≠ configRequiredMsg := by
  have h := c5_not_found_not_distinguished
  exact ⟨h.1 envSeriesNotFound 0 cfgBoth "tt1" cacheEmpty FailKind.notFound rfl rfl rfl,
    h.2.1 envSeriesNotFound 0 "tt1" cacheEmpty FailKind.notFound rfl rfl,
    h.2.2 "tt1"⟩

/-! ### C2 -/

/-- A two-season world in which season 1 is fine but fetching season 2's
episode list fails. -/
def envSeason2Down : Env :=
  { series := fun _ => Except.ok
      { name := some "Show", poster_path := none, backdrop_path := none
        overview := none, vote_average := some "8", seasons := [⟨1⟩, ⟨2⟩] }
    season := fun _ sn => if sn = 2 then Except.error FailKind.transport
      else Except.ok ⟨[⟨1, 1⟩]⟩
    episode := fun _ _ _ => Except.ok ⟨some "Pilot", none, none, none⟩
    omdb := fun _ _ _ => Except.ok ⟨some "True", none, some "7.0"⟩ }

/-- C2 counterexample: with season 1 healthy and only season 2's
episode-list fetch failing, the claim demands the assembly continue and
return season 1's episodes; instead the whole request fails — the
configurable variant rejects and the env-keyed variant returns a null
meta, neither containing any episode. -/
theorem c2_counterexample :
    (metaHandlerV1 envSeason2Down 0 cfgBoth "series" "tt1" cacheEmpty).1 =
      HandlerResult.rejected (failMsg "tt1") ∧
    (metaHandlerV2 envSeason2Down 0 "series" "tt1" cacheEmpty).1 =
      HandlerResult.nullMeta := by
  exact ⟨rfl, rfl⟩

/-- C2 (amended): a failed season episode-list fetch is not dropped: the
Promise.all join over the season fetches rejects, so the whole assembly
fails — the configurable variant rejects the request with the generic
message and the env-keyed variant degrades to an absent meta; in both
variants the cache is left unchanged and the calls issued are the series
summary plus one season-detail call per listed season. -/
theorem c2_failed_season_aborts_assembly (env : Env) (now : Nat) (cfg : Option Config)
    (id : String) (σ : CacheState) (sd : SeriesData)
    (hc : configValid cfg = true) (hmiss : cacheGet σ id now = none)
    (hser : env.series id = Except.ok sd)
    (hfail : ∃ sn ∈ seasonNumbers sd, ∃ fk, env.season id sn = Except.error fk) :
    metaHandlerV1 env now cfg "series" id σ =
      (HandlerResult.rejected (failMsg id), σ,
        RemoteCall.seriesSummary id :: (seasonNumbers sd).map (RemoteCall.seasonDetail id)) ∧
    metaHandlerV2 env now "series" id σ =
      (HandlerResult.nullMeta, σ,
        RemoteCall.seriesSummary id :: (seasonNumbers sd).map (RemoteCall.seasonDetail id)) := by
  obtain ⟨fk', hfs⟩ := exceptAll_isError (env.season id) (seasonNumbers sd) hfail
  constructor
  · rw [metaHandlerV1_miss hc hmiss, assembleV1_error (runAssembly_error_season hser hfs)]
  · rw [metaHandlerV2_miss hmiss, assembleV2_error (runAssembly_error_season hser hfs)]

/-- Witness for C2: the amended statement applied to the concrete
two-season world with season 2 failing. -/
theorem c2_failed_season_aborts_assembly_witness :
    metaHandlerV1 envSeason2Down 0 cfgBoth "series" "tt1" cacheEmpty =
      (HandlerResult.rejected (failMsg "tt1"), cacheEmpty,
        [RemoteCall.seriesSummary "tt1", RemoteCall.seasonDetail "tt1" 1,
          RemoteCall.seasonDetail "tt1" 2]) ∧
    metaHandlerV2 envSeason2Down 0 "series" "tt1" cacheEmpty =
      (HandlerResult.nullMeta, cacheEmpty,
        [RemoteCall.seriesSummary "tt1", RemoteCall.seasonDetail "tt1" 1,
          RemoteCall.seasonDetail "tt1" 2]) := by
  have h := c2_failed_season_aborts_assembly envSeason2Down 0 cfgBoth "tt1" cacheEmpty
    { name := some "Show", poster_path := none, backdrop_path := none
      overview := none, vote_average := some "8", seasons := [⟨1⟩, ⟨2⟩] }
    rfl rfl rfl ⟨2, by decide, FailKind.transport, rfl⟩
  exact h

/-- The episode record envHappy produces. -/
def happyEpisode : Episode :=
  { id := "tt1:1:1", title := "Pilot", season := 1, episode := 1
    overview := some "O", thumbnail := some "https://image.tmdb.org/t/p/w300/s.jpg"
    released := some "2020-01-01", imdbRating := some "7.9" }

/-- The series info envHappy produces under variant 1. -/
def happyInfo : SeriesInfo :=
  { id := "tt1", type := "series", name := some "Show"
    poster := some "https://image.tmdb.org/t/p/w500/p.jpg"
    background := some "https://image.tmdb.org/t/p/original/b.jpg"
    description := some "About.", imdbRating := some "8.1" }

/-- The whole meta object envHappy produces under variant 1. -/
def happyMeta : CVal := CVal.meta happyInfo [CVal.ep happyEpisode]

/-- The cache after a fresh variant-1 assembly of tt1 against envHappy at
time 0: the series entry with the 24-hour expiry and the episode entry
with the 12-hour expiry. -/
def happyCacheAfter : CacheState :=
  [("tt1", happyMeta, 24 * 60 * 60), ("tt1:1:1", CVal.ep happyEpisode, 12 * 60 * 60)]

/-- The remote calls a fresh assembly of tt1 against envHappy issues. -/
def happyCalls : List RemoteCall :=
  [RemoteCall.seriesSummary "tt1", RemoteCall.seasonDetail "tt1" 1,
    RemoteCall.episodeDetail "tt1" 1 1, RemoteCall.omdbRating "tt1" 1 1]

/-! ### C8 -/

/-- C8: (1) every cache write performed by the episode resolver uses the
12-hour lifetime; (2) after a fresh successful variant-1 assembly the
series entry is readable exactly up to 24 hours after the request time;
(3) reading any key after its entry's lifetime has elapsed behaves
exactly like reading a never-written cache; (4) the episode lifetime is
strictly shorter than the series lifetime, so an episode entry expires
before its parent series entry. -/
theorem c8_cache_lifetimes :
    (∀ (env : Env) (sid : String) (s n : Nat) (σ : CacheState) (now : Nat)
        (k : String) (v : CVal) (ttl : Nat),
      (getEpisodeRating env sid s n σ now).write = some (k, v, ttl) → ttl = 12 * 60 * 60) ∧
    (∀ (env : Env) (now : Nat) (cfg : Option Config) (id : String) (σ σ' : CacheState)
        (m : CVal) (cs : List RemoteCall),
      configValid cfg = true → cacheGet σ id now = none →
      metaHandlerV1 env now cfg "series" id σ = (HandlerResult.ok m, σ', cs) →
      ∀ t, cacheGet σ' id t = if t ≤ now + 24 * 60 * 60 then some m else none) ∧
    (∀ (σ : CacheState) (k : String) (v : CVal) (ttl now t : Nat), now + ttl < t →
      cacheGet (cacheSet σ k v ttl now) k t = cacheGet cacheEmpty k t) ∧
    (12 * 60 * 60 : Nat) < 24 * 60 * 60 := by
  refine ⟨?_, ?_, ?_, by norm_num⟩
  · intro env sid s n σ now k v ttl h
    exact (getEpisodeRating_write_shape h).1
  · intro env now cfg id σ σ' m cs hc hmiss h1 t
    rw [metaHandlerV1_miss hc hmiss] at h1
    cases hrun : runAssembly env now id σ with
    | error cs' =>
      rw [assembleV1_error hrun] at h1
      exact absurd (congrArg (fun p => p.1) h1) (fun heq => HandlerResult.noConfusion heq)
    | ok a =>
      rw [assembleV1_ok hrun] at h1
      have hm := HandlerResult.ok.inj (congrArg (fun p => p.1) h1)
      have hσ : cacheSet a.cacheAfter id (CVal.meta (seriesInfoV1 id a.sd) a.videos)
          (24 * 60 * 60) now = σ' := congrArg (fun p => p.2.1) h1
      rw [← hσ, cacheGet_cacheSet_self, hm]
  · intro σ k v ttl now t h
    rw [cacheGet_cacheSet_self, if_neg (by omega), cacheGet_empty]

/-- Witness for C8 at the concrete happy world: the series entry is live
at exactly 24 hours, the resolver's write carries the 12-hour lifetime,
and a key read after expiry equals a read of the never-written cache. -/
theorem c8_cache_lifetimes_witness :
    cacheGet happyCacheAfter "tt1" (24 * 60 * 60) = some happyMeta ∧
    (getEpisodeRating envHappy "tt1" 1 1 cacheEmpty 0).write =
      some ("tt1:1:1", CVal.ep happyEpisode, 12 * 60 * 60) ∧
    cacheGet (cacheSet cacheEmpty "tt1" happyMeta 10 0) "tt1" 11 =
      cacheGet cacheEmpty "tt1" 11 := by
  have h := c8_cache_lifetimes
  refine ⟨?_, ?_, ?_⟩
  · have h2 := h.2.1 envHappy 0 cfgBoth "tt1" cacheEmpty happyCacheAfter happyMeta happyCalls
      rfl rfl rfl (24 * 60 * 60)
    rw [h2]
    norm_num
  · have h1 := h.1 envHappy "tt1" 1 1 cacheEmpty 0 "tt1:1:1" (CVal.ep happyEpisode)
      (12 * 60 * 60) rfl
    exact rfl
  · exact h.2.2.1 cacheEmpty "tt1" happyMeta 10 0 11 (by norm_num)

/-! ### C4 -/

/-- C4: if a fresh variant-1 assembly (series-level cache miss) of an
identifier succeeds at time t0, then a second series request for the same
identifier at any time up to 24 hours later — against any environment and
any valid configuration — returns the identical meta object, issues zero
remote calls, and leaves the cache unchanged: it is answered entirely from
the series cache entry the first call wrote. -/
theorem c4_second_call_cached (env env' : Env) (t0 t1 : Nat) (cfg cfg' : Option Config)
    (id : String) (σ0 σ1 : CacheState) (m : CVal) (cs : List RemoteCall)
    (hc : configValid cfg = true) (hc' : configValid cfg' = true)
    (hmiss : cacheGet σ0 id t0 = none)
    (h1 : metaHandlerV1 env t0 cfg "series" id σ0 = (HandlerResult.ok m, σ1, cs))
    (ht : t1 ≤ t0 + 24 * 60 * 60) :
    metaHandlerV1 env' t1 cfg' "series" id σ1 = (HandlerResult.ok m, σ1, []) := by
  rw [metaHandlerV1_miss hc hmiss] at h1
  cases hrun : runAssembly env t0 id σ0 with
  | error cs' =>
    rw [assembleV1_error hrun] at h1
    exact absurd (congrArg (fun p => p.1) h1) (fun heq => HandlerResult.noConfusion heq)
  | ok a =>
    rw [assembleV1_ok hrun] at h1
    have hm := HandlerResult.ok.inj (congrArg (fun p => p.1) h1)
    have hσ : cacheSet a.cacheAfter id (CVal.meta (seriesInfoV1 id a.sd) a.videos)
        (24 * 60 * 60) t0 = σ1 := congrArg (fun p => p.2.1) h1
    have hget2 : cacheGet σ1 id t1 = some m := by
      rw [← hσ, cacheGet_cacheSet_self, if_pos ht, hm]
    exact metaHandlerV1_hit hc' hget2

/-- Witness for C4: after the fresh happy-world assembly at time 0, a
second request at exactly 24 hours — against a world where every upstream
call now fails — still returns the identical meta object with zero remote
calls. -/
theorem c4_second_call_cached_witness :
    metaHandlerV1 envDown (24 * 60 * 60) cfgBoth "series" "tt1" happyCacheAfter =
      (HandlerResult.ok happyMeta, happyCacheAfter, []) :=
  c4_second_call_cached envHappy envDown 0 (24 * 60 * 60) cfgBoth cfgBoth "tt1"
    cacheEmpty happyCacheAfter happyMeta happyCalls rfl rfl rfl rfl (by norm_num)

/-! ### C10 -/

/-- C10: every episode record the resolver produces has the identifier
string seriesId:season:episode built from its own season and episode
fields, and that identifier is exactly the cache key under which the
record is stored; consequently, over every cache state the running addon
can reach, any value the resolver hands back for (seriesId, season,
episode) — cached or fresh — is an episode record whose season and
episode fields match the request and whose id is the cache key. -/
theorem c10_episode_identifier_coherence :
    (∀ (env : Env) (sid : String) (s n : Nat) (σ : CacheState) (now : Nat)
        (k : String) (v : CVal) (ttl : Nat),
      (getEpisodeRating env sid s n σ now).write = some (k, v, ttl) →
      ∃ e, v = CVal.ep e ∧ e.id = episodeCacheKey sid s n ∧ k = e.id ∧
        e.season = s ∧ e.episode = n) ∧
    (∀ (env : Env) (sid : String) (s n : Nat) (σ : CacheState) (now : Nat) (v : CVal),
      Reach σ → ColonFree sid →
      (getEpisodeRating env sid s n σ now).result = some v →
      ∃ e, v = CVal.ep e ∧ e.id = episodeCacheKey sid s n ∧
        e.season = s ∧ e.episode = n) := by
  constructor
  · intro env sid s n σ now k v ttl h
    obtain ⟨httl, hk, te, od, hep, hod, hresp, hv⟩ := getEpisodeRating_write_shape h
    exact ⟨buildEpisode sid s n te od, hv, buildEpisode_id sid s n te od,
      hk.trans (buildEpisode_id sid s n te od).symm,
      buildEpisode_season sid s n te od, buildEpisode_episode sid s n te od⟩
  · intro env sid s n σ now v hreach hsid h
    exact getEpisodeRating_result_shape (cacheInv_of_reach hreach) hsid h

/-- Witness for C10: the fresh resolution of tt1 season 1 episode 1 in the
happy world, over the reachable empty cache. -/
theorem c10_episode_identifier_coherence_witness :
    ∃ e, CVal.ep happyEpisode = CVal.ep e ∧ e.id = episodeCacheKey "tt1" 1 1 ∧
      e.season = 1 ∧ e.episode = 1 :=
  c10_episode_identifier_coherence.2 envHappy "tt1" 1 1 cacheEmpty 0
    (CVal.ep happyEpisode) Reach.init (by decide) rfl

/-! ### The comparator on episode values -/

theorem cvalLe_ep (a b : Episode) :
    cvalLe (CVal.ep a) (CVal.ep b) = true ↔
      (a.season < b.season ∨ (a.season = b.season ∧ a.episode ≤ b.episode)) := by
  simp only [cvalLe, cvalCmp, decide_eq_true_eq]
  split
  · next h => omega
  · next h => omega

/-- Does a cache value carry exactly this (season, episode) pair? -/
def epKeyIs (v : CVal) (s n : Nat) : Bool :=
  match v with
  | CVal.ep e => e.season == s && e.episode == n
  | CVal.meta _ _ => false

theorem epKeyIs_eq {v : CVal} {s n : Nat} (h : epKeyIs v s n = true) :
    ∃ e, v = CVal.ep e ∧ e.season = s ∧ e.episode = n := by
  cases v with
  | ep e =>
    simp only [epKeyIs, Bool.and_eq_true, beq_iff_eq] at h
    exact ⟨e, rfl, h.1, h.2⟩
  | meta i l => simp [epKeyIs] at h

/-! ### C3 -/

/-- C3: for a fresh variant-1 assembly over any reachable cache, the
returned meta object's episode sequence has length at most the number N
of episodes across the fetched seasons, with equality exactly when every
episode resolves; it is sorted ascending by season then episode; and
elements with equal (season, episode) keys keep their relative order from
the flattened pre-sort collection (stability). -/
theorem c3_episode_list_sorted_and_bounded
    (env : Env) (now : Nat) (cfg : Option Config) (id : String) (σ : CacheState)
    (sd : SeriesData) (sdatas : List SeasonData) (m : CVal) (σ' : CacheState)
    (cs : List RemoteCall)
    (hreach : Reach σ) (hid : ColonFree id) (hc : configValid cfg = true)
    (hmiss : cacheGet σ id now = none)
    (hser : env.series id = Except.ok sd)
    (hfs : fetchSeasons env id (seasonNumbers sd) = Except.ok sdatas)
    (h1 : metaHandlerV1 env now cfg "series" id σ = (HandlerResult.ok m, σ', cs)) :
    ∃ vids, m = CVal.meta (seriesInfoV1 id sd) vids ∧
      vids.length ≤ (flattenEpisodes sdatas).length ∧
      (vids.length = (flattenEpisodes sdatas).length ↔
        ∀ er ∈ flattenEpisodes sdatas,
          ((getEpisodeRating env id er.season_number er.episode_number σ now).result).isSome) ∧
      vids.Pairwise (fun x y => ∃ ex ey, x = CVal.ep ex ∧ y = CVal.ep ey ∧
        (ex.season < ey.season ∨ (ex.season = ey.season ∧ ex.episode ≤ ey.episode))) ∧
      (∀ s n : Nat, vids.filter (fun v => epKeyIs v s n) =
        ((resolveEpisodes env id (flattenEpisodes sdatas) σ now).filterMap
          (fun o => o.result)).filter (fun v => epKeyIs v s n)) := by
  have hrun := @runAssembly_ok_of env now id σ sd sdatas hser hfs
  rw [metaHandlerV1_miss hc hmiss, assembleV1_ok hrun] at h1
  have hm : CVal.meta (seriesInfoV1 id sd)
      (jsSort cvalLe ((resolveEpisodes env id (flattenEpisodes sdatas) σ now).filterMap
        (fun o => o.result))) = m :=
    HandlerResult.ok.inj (congrArg (fun p => p.1) h1)
  have hinv := cacheInv_of_reach hreach
  have hall : ∀ v ∈ (resolveEpisodes env id (flattenEpisodes sdatas) σ now).filterMap
      (fun o => o.result), ∃ e, v = CVal.ep e := by
    intro v hv
    obtain ⟨o, ho, hres⟩ := List.mem_filterMap.mp hv
    simp only [resolveEpisodes, List.mem_map] at ho
    obtain ⟨er, her, rfl⟩ := ho
    obtain ⟨e, he, -, -, -⟩ := getEpisodeRating_result_shape hinv hid hres
    exact ⟨e, he⟩
  refine ⟨_, hm.symm, ?_, ?_, ?_, ?_⟩
  · rw [length_jsSort]
    calc ((resolveEpisodes env id (flattenEpisodes sdatas) σ now).filterMap
          (fun o => o.result)).length
        ≤ (resolveEpisodes env id (flattenEpisodes sdatas) σ now).length :=
          List.length_filterMap_le _ _
      _ = (flattenEpisodes sdatas).length := by simp [resolveEpisodes]
  · rw [length_jsSort]
    have h2 := length_filterMap_eq_iff
      (resolveEpisodes env id (flattenEpisodes sdatas) σ now) (fun o => o.result)
    have hlen : (resolveEpisodes env id (flattenEpisodes sdatas) σ now).length =
        (flattenEpisodes sdatas).length := by simp [resolveEpisodes]
    rw [hlen] at h2
    refine h2.trans ?_
    simp only [resolveEpisodes, List.mem_map]
    constructor
    · intro h er her
      exact h _ ⟨er, her, rfl⟩
    · rintro h o ⟨er, her, rfl⟩
      exact h er her
  · have hp := pairwise_jsSort cvalLe
      ((resolveEpisodes env id (flattenEpisodes sdatas) σ now).filterMap (fun o => o.result))
      (by
        intro x hx y hy
        obtain ⟨ex, rfl⟩ := hall x hx
        obtain ⟨ey, rfl⟩ := hall y hy
        simp only [cvalLe_ep]
        omega)
      (by
        intro x hx y hy z hz
        obtain ⟨ex, rfl⟩ := hall x hx
        obtain ⟨ey, rfl⟩ := hall y hy
        obtain ⟨ez, rfl⟩ := hall z hz
        simp only [cvalLe_ep]
        omega)
    refine hp.imp_of_mem ?_
    intro x y hx hy hxy
    obtain ⟨ex, rfl⟩ := hall x ((mem_jsSort _ _ _).mp hx)
    obtain ⟨ey, rfl⟩ := hall y ((mem_jsSort _ _ _).mp hy)
    rw [cvalLe_ep] at hxy
    exact ⟨ex, ey, rfl, rfl, hxy⟩
  · intro s n
    apply filter_jsSort
    intro x hx y hy hpx hpy
    obtain ⟨ex, rfl, hsx, hnx⟩ := epKeyIs_eq hpx
    obtain ⟨ey, rfl, hsy, hny⟩ := epKeyIs_eq hpy
    rw [cvalLe_ep]
    omega

/-- Witness for C3: the fresh happy-world assembly of tt1 over the
reachable empty cache satisfies every part of the conclusion. -/
theorem c3_episode_list_sorted_and_bounded_witness :
    ∃ vids, happyMeta = CVal.meta (seriesInfoV1 "tt1" happySeriesData) vids ∧
      vids.length ≤ (flattenEpisodes [⟨[⟨1, 1⟩]⟩]).length ∧
      (vids.length = (flattenEpisodes [⟨[⟨1, 1⟩]⟩]).length ↔
        ∀ er ∈ flattenEpisodes [⟨[⟨1, 1⟩]⟩],
          ((getEpisodeRating envHappy "tt1" er.season_number er.episode_number
            cacheEmpty 0).result).isSome) ∧
      vids.Pairwise (fun x y => ∃ ex ey, x = CVal.ep ex ∧ y = CVal.ep ey ∧
        (ex.season < ey.season ∨ (ex.season = ey.season ∧ ex.episode ≤ ey.episode))) ∧
      (∀ s n : Nat, vids.filter (fun v => epKeyIs v s n) =
        ((resolveEpisodes envHappy "tt1" (flattenEpisodes [⟨[⟨1, 1⟩]⟩])
          cacheEmpty 0).filterMap (fun o => o.result)).filter (fun v => epKeyIs v s n)) :=
  c3_episode_list_sorted_and_bounded envHappy 0 cfgBoth "tt1" cacheEmpty
    happySeriesData [⟨[⟨1, 1⟩]⟩] happyMeta happyCacheAfter happyCalls
    Reach.init (by decide) rfl rfl rfl rfl rfl

/-! ### C1 -/

/-- The series summary used by the C1 worlds. -/
def c1SeriesData : SeriesData :=
  { name := some "Show", poster_path := none, backdrop_path := none
    overview := none, vote_average := some "8", seasons := [⟨1⟩] }

/-- A world with one season of two episodes in which the ratings provider
answers episode 2 with a malformed body: a parseable response carrying
none of the expected fields (no Response flag, no Error, no imdbRating). -/
def envOmdbMalformed : Env :=
  { series := fun _ => Except.ok c1SeriesData
    season := fun _ _ => Except.ok ⟨[⟨1, 1⟩, ⟨1, 2⟩]⟩
    episode := fun _ _ _ => Except.ok ⟨none, none, none, none⟩
    omdb := fun _ _ n => if n = 2 then Except.ok ⟨none, none, none⟩
      else Except.ok ⟨some "True", none, some "7.0"⟩ }

/-- The first episode record the C1 worlds produce. -/
def c1E11 : Episode :=
  { id := "tt1:1:1", title := "Episode 1", season := 1, episode := 1
    overview := none, thumbnail := none, released := none, imdbRating := some "7.0" }

/-- The episode record built from the malformed ratings answer: kept, with
an absent rating. -/
def c1E12 : Episode :=
  { id := "tt1:1:2", title := "Episode 2", season := 1, episode := 2
    overview := none, thumbnail := none, released := none, imdbRating := none }

/-- C1 counterexample: when the ratings provider fails for exactly one
episode out of N = 2 via a malformed (fieldless but parseable) response,
the claim demands the resolver return absent and the series record contain
exactly one episode, not the failed one.  Instead the resolver keeps the
episode — Response is not the string False, so nothing throws — and the
returned record contains both episodes, the failed one with an absent
rating. -/
theorem c1_counterexample :
    (metaHandlerV1 envOmdbMalformed 0 cfgBoth "series" "tt1" cacheEmpty).1 =
      HandlerResult.ok (CVal.meta (seriesInfoV1 "tt1" c1SeriesData)
        [CVal.ep c1E11, CVal.ep c1E12]) ∧
    c1E12.season = 1 ∧ c1E12.episode = 2 ∧ c1E12.imdbRating = none ∧
    [CVal.ep c1E11, CVal.ep c1E12].length = 2 :=
  ⟨rfl, rfl, rfl, rfl, rfl⟩

/-- Same world, but the ratings call for episode 2 fails in transport. -/
def envOmdbOneDown : Env :=
  { series := fun _ => Except.ok c1SeriesData
    season := fun _ _ => Except.ok ⟨[⟨1, 1⟩, ⟨1, 2⟩]⟩
    episode := fun _ _ _ => Except.ok ⟨none, none, none, none⟩
    omdb := fun _ _ n => if n = 2 then Except.error FailKind.transport
      else Except.ok ⟨some "True", none, some "7.0"⟩ }

/-- C1 (amended): when the ratings provider fails for exactly one episode
out of N via a transport error or a provider-reported not-found (Response
=== "False") — the failure modes that actually reach the resolver's catch
— and that episode is not already cached, the resolver returns absent for
it, the assembled record contains exactly N − 1 episodes, none of which
carries the failed (season, episode) pair, and the overall request
succeeds.  A malformed-but-parseable ratings response is not such a
failure: it yields an episode with an absent rating (see the
counterexample). -/
theorem c1_single_failed_episode_dropped
    (env : Env) (now : Nat) (cfg : Option Config) (id : String) (σ : CacheState)
    (sd : SeriesData) (sdatas : List SeasonData) (s₀ n₀ : Nat)
    (hreach : Reach σ) (hid : ColonFree id) (hc : configValid cfg = true)
    (hmiss : cacheGet σ id now = none)
    (hser : env.series id = Except.ok sd)
    (hfs : fetchSeasons env id (seasonNumbers sd) = Except.ok sdatas)
    (hcount : (flattenEpisodes sdatas).countP
        (fun er => er.season_number == s₀ && er.episode_number == n₀) = 1)
    (hepmiss : cacheGet σ (episodeCacheKey id s₀ n₀) now = none)
    (hfail : (∃ fk, env.omdb id s₀ n₀ = Except.error fk) ∨
      (∃ od, env.omdb id s₀ n₀ = Except.ok od ∧ od.Response = some "False"))
    (hothers : ∀ er ∈ flattenEpisodes sdatas,
      ¬(er.season_number = s₀ ∧ er.episode_number = n₀) →
      ((getEpisodeRating env id er.season_number er.episode_number σ now).result).isSome) :
    (getEpisodeRating env id s₀ n₀ σ now).result = none ∧
    ∃ vids σ' cs,
      metaHandlerV1 env now cfg "series" id σ =
        (HandlerResult.ok (CVal.meta (seriesInfoV1 id sd) vids), σ', cs) ∧
      vids.length + 1 = (flattenEpisodes sdatas).length ∧
      (∀ v ∈ vids, ∃ e, v = CVal.ep e ∧ ¬(e.season = s₀ ∧ e.episode = n₀)) := by
  have habs : (getEpisodeRating env id s₀ n₀ σ now).result = none :=
    getEpisodeRating_absent hepmiss hfail
  refine ⟨habs, ?_⟩
  have hrun := @runAssembly_ok_of env now id σ sd sdatas hser hfs
  have hhandler : metaHandlerV1 env now cfg "series" id σ =
      (HandlerResult.ok (CVal.meta (seriesInfoV1 id sd)
        (jsSort cvalLe ((resolveEpisodes env id (flattenEpisodes sdatas) σ now).filterMap
          (fun o => o.result)))),
       cacheSet (applyWrites σ (resolveEpisodes env id (flattenEpisodes sdatas) σ now) now) id
         (CVal.meta (seriesInfoV1 id sd)
           (jsSort cvalLe ((resolveEpisodes env id (flattenEpisodes sdatas) σ now).filterMap
             (fun o => o.result)))) (24 * 60 * 60) now,
       RemoteCall.seriesSummary id ::
         ((seasonNumbers sd).map (RemoteCall.seasonDetail id) ++
           (resolveEpisodes env id (flattenEpisodes sdatas) σ now).flatMap
             (fun o => o.calls))) := by
    rw [metaHandlerV1_miss hc hmiss, assembleV1_ok hrun]
  refine ⟨_, _, _, hhandler, ?_, ?_⟩
  · rw [length_jsSort]
    have hkey := length_filterMap_add_countP
      (resolveEpisodes env id (flattenEpisodes sdatas) σ now) (fun o => o.result)
    have houtslen : (resolveEpisodes env id (flattenEpisodes sdatas) σ now).length =
        (flattenEpisodes sdatas).length := by simp [resolveEpisodes]
    have hcount' : (resolveEpisodes env id (flattenEpisodes sdatas) σ now).countP
        (fun o => (o.result).isNone) = 1 := by
      simp only [resolveEpisodes]
      rw [List.countP_map]
      refine Eq.trans ?_ hcount
      apply List.countP_congr
      intro er her
      simp only [Function.comp_apply]
      by_cases hp : er.season_number = s₀ ∧ er.episode_number = n₀
      · obtain ⟨hp1, hp2⟩ := hp
        rw [hp1, hp2, habs]
        simp
      · have hs := hothers er her hp
        cases hres : (getEpisodeRating env id er.season_number er.episode_number σ now).result
          with
        | none => rw [hres] at hs; simp at hs
        | some v =>
          simp only [Option.isNone_some, Bool.false_eq_true, false_iff, Bool.and_eq_true,
            beq_iff_eq]
          exact hp
    rw [hcount', houtslen] at hkey
    omega
  · intro v hv
    have hv' := (mem_jsSort _ _ _).mp hv
    obtain ⟨o, ho, hres⟩ := List.mem_filterMap.mp hv'
    simp only [resolveEpisodes, List.mem_map] at ho
    obtain ⟨er, her, rfl⟩ := ho
    obtain ⟨e, he, hid', hs', hn'⟩ :=
      getEpisodeRating_result_shape (cacheInv_of_reach hreach) hid hres
    refine ⟨e, he, ?_⟩
    rintro ⟨hS, hN⟩
    have h1 : er.season_number = s₀ := by omega
    have h2 : er.episode_number = n₀ := by omega
    rw [h1, h2, habs] at hres
    exact Option.noConfusion hres

/-- Witness for C1: one season of two episodes, the ratings call for
episode (1,2) failing in transport: that resolver call is absent, the
assembly succeeds with exactly one episode, and no remaining episode is
(1,2). -/
theorem c1_single_failed_episode_dropped_witness :
    (getEpisodeRating envOmdbOneDown "tt1" 1 2 cacheEmpty 0).result = none ∧
    ∃ vids σ' cs,
      metaHandlerV1 envOmdbOneDown 0 cfgBoth "series" "tt1" cacheEmpty =
        (HandlerResult.ok (CVal.meta (seriesInfoV1 "tt1" c1SeriesData) vids), σ', cs) ∧
      vids.length + 1 = (flattenEpisodes [⟨[⟨1, 1⟩, ⟨1, 2⟩]⟩]).length ∧
      (∀ v ∈ vids, ∃ e, v = CVal.ep e ∧ ¬(e.season = 1 ∧ e.episode = 2)) :=
  c1_single_failed_episode_dropped envOmdbOneDown 0 cfgBoth "tt1" cacheEmpty
    c1SeriesData [⟨[⟨1, 1⟩, ⟨1, 2⟩]⟩] 1 2 Reach.init (by decide) rfl rfl rfl rfl
    (by decide) rfl (Or.inl ⟨FailKind.transport, rfl⟩) (by decide)
